import Mathlib

/-!
Shallow embedding of the ingestion-and-normalization pipeline of the
`lmops-icai` repository (files `app/services/ai_service.py` and
`app/services/file_info_service.py`), together with theorems settling the
specification claims about it.

Python strings are modelled as `String` at the service boundary and as
`List Char` internally (a Python `str` is a sequence of code points).
Bytes are `Nat` values below 256.  Python floats that arise here
(`size_bytes / 1024` and `round(_, 2)`) are modelled as rationals: every
value `n / 1024` with `n < 2^53` is exactly representable in binary
floating point and Python's `round` performs correctly rounded
half-to-even decimal rounding on it, so the rational model agrees with
the float computation on all realistic sizes.
-/

/-! ## Base64 (model of Python `base64.b64decode` / `base64.b64encode`) -/

/-- The standard base64 alphabet, in digit order. -/
def b64Alphabet : List Char :=
  "ABCDEFGHIJKLMNOPQRSTUVWXYZabcdefghijklmnopqrstuvwxyz0123456789+/".toList

/-- Character for a 6-bit digit value. -/
def b64digitChar (n : Nat) : Char := b64Alphabet.getD n 'A'

/-- Digit value of a character, `none` when the character is not in the
alphabet (CPython `table_a2b_base64` yielding `-1`). -/
def b64digitVal (c : Char) : Option Nat :=
  let i := b64Alphabet.indexOf c
  if i < 64 then some i else none

/-- Model of the CPython `binascii.a2b_base64` decoding loop in its default
non-strict mode: invalid characters are skipped; `'='` at quad position 0
or 1 is skipped; a pad sequence completing a quad ends decoding, ignoring
the rest of the input; input ending mid-quad is an error.  Arguments:
remaining characters, quad position, the pending `leftchar` bits and the
current pad count. -/
def a2bLoop : List Char → Nat → Nat → Nat → Option (List Nat)
  | [], qp, _, _ => if qp = 0 then some [] else none
  | c :: rest, qp, left, pads =>
    if c = '=' then
      if 2 ≤ qp then
        if 4 ≤ qp + pads + 1 then some []
        else a2bLoop rest qp left (pads + 1)
      else a2bLoop rest qp left pads
    else
      match b64digitVal c with
      | none => a2bLoop rest qp left pads
      | some d =>
        match qp with
        | 0 => a2bLoop rest 1 d 0
        | 1 => Option.map (fun bs => (left * 4 + d / 16) :: bs) (a2bLoop rest 2 (d % 16) 0)
        | 2 => Option.map (fun bs => (left * 16 + d / 4) :: bs) (a2bLoop rest 3 (d % 4) 0)
        | _ => Option.map (fun bs => (left * 64 + d) :: bs) (a2bLoop rest 0 0 0)

/-- Model of `base64.b64decode` applied to a `str`: the string is first
encoded as ASCII (failing on any code point ≥ 128), then run through the
`a2b_base64` loop. -/
def b64decode (s : List Char) : Option (List Nat) :=
  if s.all (fun c => c.toNat < 128) then a2bLoop s 0 0 0 else none

/-- Model of `base64.b64encode` (standard alphabet, `'='` padding). -/
def b64encode : List Nat → List Char
  | [] => []
  | [b1] => [b64digitChar (b1 / 4), b64digitChar (b1 % 4 * 16), '=', '=']
  | [b1, b2] =>
      [b64digitChar (b1 / 4), b64digitChar (b1 % 4 * 16 + b2 / 16),
       b64digitChar (b2 % 16 * 4), '=']
  | b1 :: b2 :: b3 :: rest =>
      b64digitChar (b1 / 4) :: b64digitChar (b1 % 4 * 16 + b2 / 16) ::
      b64digitChar (b2 % 16 * 4 + b3 / 64) :: b64digitChar (b3 % 64) ::
      b64encode rest

/-! ## Python string helpers used by the services -/

/-- Model of Python `str.split(',')`. -/
def splitOnComma : List Char → List (List Char)
  | [] => [[]]
  | c :: rest =>
    if c = ',' then [] :: splitOnComma rest
    else
      match splitOnComma rest with
      | [] => [[c]]
      | g :: gs => (c :: g) :: gs

/-- Model of the shared pattern
`if ',' in s: s = s.split(',')[1]` used by `process_image`,
`detect_file_type` and `calculate_file_size`.  (When the guard holds the
split has at least two fields, so the default of `getD` is never used.) -/
def stripDataUrl (s : List Char) : List Char :=
  if s.contains ',' then (splitOnComma s).getD 1 [] else s

/-- Everything strictly after the first comma — the segment the spec says
is decoded. -/
def afterFirstComma (s : List Char) : List Char :=
  (s.dropWhile (fun c => c ≠ ',')).drop 1

/-! ## FileInfoService (`app/services/file_info_service.py`) -/

/-- The `%PDF` magic bytes. -/
def pdfMagic : List Nat := [37, 80, 68, 70]

/-- The `\x89PNG` magic bytes. -/
def pngMagic : List Nat := [137, 80, 78, 71]

/-- The `\xff\xd8\xff` JPEG start-of-image marker. -/
def jpegMagic : List Nat := [255, 216, 255]

/-- The magic-number cascade of `detect_file_type` (lines 72–79): the
`startswith` tests in source order. -/
def classifyBytes (file_bytes : List Nat) : String :=
  if pdfMagic.isPrefixOf file_bytes then "PDF"
  else if pngMagic.isPrefixOf file_bytes then "PNG"
  else if jpegMagic.isPrefixOf file_bytes then "JPEG"
  else "UNKNOWN"

/-- Model of `FileInfoService.detect_file_type`: strip an optional data-URL prefix,
base64-decode, classify by magic number; any exception (in this model,
a decode failure) is caught and yields `"UNKNOWN"`. -/
def detect_file_type (file_base64 : String) : String :=
  match b64decode (stripDataUrl file_base64.toList) with
  | none => "UNKNOWN"
  | some file_bytes => classifyBytes file_bytes

/-- Round half to even to an integer (the rounding Python's `round` uses). -/
def roundHalfEven (q : ℚ) : ℤ :=
  let f := Rat.floor q
  let r := q - f
  if r < 1 / 2 then f
  else if 1 / 2 < r then f + 1
  else if f % 2 = 0 then f else f + 1

/-- Model of Python `round(x, 2)`. -/
def pyRound2 (q : ℚ) : ℚ := (roundHalfEven (q * 100) : ℚ) / 100

/-- Model of `FileInfoService.calculate_file_size`: strip the optional prefix,
decode, return `round(len(bytes) / 1024, 2)`; any exception (in this
model, a decode failure) is caught and yields `0.0`. -/
def calculate_file_size (file_base64 : String) : ℚ :=
  match b64decode (stripDataUrl file_base64.toList) with
  | none => 0
  | some file_bytes => pyRound2 ((file_bytes.length : ℚ) / 1024)

/-- The dictionary returned by `get_file_info`. -/
structure FileInfo where
  message : String
  filename : String
  file_type : String
  file_size_kb : ℚ
  deriving DecidableEq

/-- Model of Python `str.lower()` (ASCII inputs only arise here):
lowercase each character. -/
def pyLower (s : String) : String := String.mk (s.toList.map Char.toLower)

/-- Model of `FileInfoService.get_file_info`: compose type detection, size
calculation and filename defaulting.  The `filename` argument is
`Option String`; Python's falsiness test `if not filename` treats both
`None` and `""` as absent. -/
def get_file_info (file_base64 : String) (filename : Option String) : FileInfo :=
  let file_type := detect_file_type file_base64
  let file_size_kb := calculate_file_size file_base64
  let defaultName :=
    "archivo." ++ (if file_type ≠ "UNKNOWN" then pyLower file_type else "bin")
  let finalName :=
    match filename with
    | none => defaultName
    | some f => if f = "" then defaultName else f
  { message := "Archivo recibido correctamente"
    filename := finalName
    file_type := file_type
    file_size_kb := file_size_kb }

/-! ## JSON values and a model of Python `json.loads`

Numbers are modelled as rationals (Python parses floats; every number in
the claims is exactly representable).  `json.loads` additionally accepts
the non-JSON constants `NaN`, `Infinity` and `-Infinity`, modelled by
dedicated constructors.  Objects are association lists in parse order
(the claims involve no duplicate keys). -/

inductive Json where
  | null : Json
  | bool (b : Bool) : Json
  | num (q : ℚ) : Json
  | str (s : String) : Json
  | arr (elems : List Json) : Json
  | obj (kvs : List (String × Json)) : Json
  | nan : Json
  | inf (pos : Bool) : Json

/-- JSON whitespace, as skipped by Python's decoder (`' \t\n\r'`). -/
def jsonWs (c : Char) : Bool := c = ' ' || c = '\t' || c = '\n' || c = '\r'

/-- Skip JSON whitespace. -/
def skipWs (l : List Char) : List Char := l.dropWhile jsonWs

/-- Hex digit value. -/
def hexVal (c : Char) : Option Nat :=
  if '0' ≤ c ∧ c ≤ '9' then some (c.toNat - 48)
  else if 'a' ≤ c ∧ c ≤ 'f' then some (c.toNat - 87)
  else if 'A' ≤ c ∧ c ≤ 'F' then some (c.toNat - 70)
  else none

/-- Body of a JSON string, after the opening quote: returns the decoded
characters and the input past the closing quote.  Control characters are
rejected (Python default `strict=True`); `\uXXXX` escapes combine
surrogate pairs.  (A lone surrogate, which Python would keep as a lone
surrogate code unit, is not representable in `Char` and is modelled as a
failure; no claim exercises it.)  The fuel argument only serves
termination: every step consumes at least one character, so the
`length + 1` fuel supplied at the call sites never runs out. -/
def parseStringBody : Nat → List Char → Option (List Char × List Char)
  | 0, _ => none
  | _, [] => none
  | _ + 1, '"' :: rest => some ([], rest)
  | fuel + 1, '\\' :: rest =>
    match rest with
    | [] => none
    | e :: rest2 =>
      match e with
      | '"' => Option.map (fun p => ('"' :: p.1, p.2)) (parseStringBody fuel rest2)
      | '\\' => Option.map (fun p => ('\\' :: p.1, p.2)) (parseStringBody fuel rest2)
      | '/' => Option.map (fun p => ('/' :: p.1, p.2)) (parseStringBody fuel rest2)
      | 'b' => Option.map (fun p => ('\x08' :: p.1, p.2)) (parseStringBody fuel rest2)
      | 'f' => Option.map (fun p => ('\x0c' :: p.1, p.2)) (parseStringBody fuel rest2)
      | 'n' => Option.map (fun p => ('\n' :: p.1, p.2)) (parseStringBody fuel rest2)
      | 'r' => Option.map (fun p => ('\r' :: p.1, p.2)) (parseStringBody fuel rest2)
      | 't' => Option.map (fun p => ('\t' :: p.1, p.2)) (parseStringBody fuel rest2)
      | 'u' =>
        match rest2 with
        | h1 :: h2 :: h3 :: h4 :: rest3 =>
          match hexVal h1, hexVal h2, hexVal h3, hexVal h4 with
          | some a, some b, some c, some d =>
            let n := ((a * 16 + b) * 16 + c) * 16 + d
            if 0xd800 ≤ n ∧ n ≤ 0xdbff then
              match rest3 with
              | '\\' :: 'u' :: k1 :: k2 :: k3 :: k4 :: rest4 =>
                match hexVal k1, hexVal k2, hexVal k3, hexVal k4 with
                | some a2, some b2, some c2, some d2 =>
                  let m := ((a2 * 16 + b2) * 16 + c2) * 16 + d2
                  if 0xdc00 ≤ m ∧ m ≤ 0xdfff then
                    Option.map
                      (fun p =>
                        (Char.ofNat (0x10000 + (n - 0xd800) * 0x400 + (m - 0xdc00)) :: p.1, p.2))
                      (parseStringBody fuel rest4)
                  else none
                | _, _, _, _ => none
              | _ => none
            else if 0xdc00 ≤ n ∧ n ≤ 0xdfff then none
            else Option.map (fun p => (Char.ofNat n :: p.1, p.2)) (parseStringBody fuel rest3)
          | _, _, _, _ => none
        | _ => none
      | _ => none
  | fuel + 1, c :: rest =>
    if c.toNat < 32 then none
    else Option.map (fun p => (c :: p.1, p.2)) (parseStringBody fuel rest)

/-- Numeric value of a digit string. -/
def digitsVal (ds : List Char) : Nat :=
  ds.foldl (fun a c => a * 10 + (c.toNat - 48)) 0

/-- Parse a JSON number at the head of the input, per Python's
`NUMBER_RE`: `-? (0 | [1-9][0-9]*) (\.[0-9]+)? ([eE][+-]?[0-9]+)?`.
A fractional part or exponent that fails to match is simply not
consumed, exactly as an unmatched optional regex group. -/
def parseNumber (l : List Char) : Option (Json × List Char) :=
  let (neg, l1) := match l with
    | '-' :: t => (true, t)
    | _ => (false, l)
  match l1 with
  | c :: t =>
    if c.isDigit then
      let (intDs, l2) := if c = '0' then ([c], t) else l1.span Char.isDigit
      let (fracDs, l3) :=
        match l2 with
        | '.' :: t2 =>
          let p := t2.span Char.isDigit
          if p.1 = [] then ([], l2) else (p.1, p.2)
        | _ => ([], l2)
      let (expSign, expDs, l4) :=
        match l3 with
        | 'e' :: '+' :: t3 =>
          let p := t3.span Char.isDigit
          if p.1 = [] then (true, [], l3) else (true, p.1, p.2)
        | 'e' :: '-' :: t3 =>
          let p := t3.span Char.isDigit
          if p.1 = [] then (true, [], l3) else (false, p.1, p.2)
        | 'e' :: t3 =>
          let p := t3.span Char.isDigit
          if p.1 = [] then (true, [], l3) else (true, p.1, p.2)
        | 'E' :: '+' :: t3 =>
          let p := t3.span Char.isDigit
          if p.1 = [] then (true, [], l3) else (true, p.1, p.2)
        | 'E' :: '-' :: t3 =>
          let p := t3.span Char.isDigit
          if p.1 = [] then (true, [], l3) else (false, p.1, p.2)
        | 'E' :: t3 =>
          let p := t3.span Char.isDigit
          if p.1 = [] then (true, [], l3) else (true, p.1, p.2)
        | _ => (true, [], l3)
      let mantissa : Int := (digitsVal intDs * 10 ^ fracDs.length + digitsVal fracDs : Nat)
      let scaled : ℚ :=
        if expDs = [] then mkRat mantissa (10 ^ fracDs.length)
        else if expSign then mkRat (mantissa * 10 ^ digitsVal expDs) (10 ^ fracDs.length)
        else mkRat mantissa (10 ^ fracDs.length * 10 ^ digitsVal expDs)
      some (Json.num (if neg then -scaled else scaled), l4)
    else none
  | [] => none

mutual

/-- Parse a JSON value at the head of the input (leading whitespace
already skipped).  The fuel argument only bounds nesting; every
recursive call consumes input first, so `length + 1` fuel never runs
out. -/
def parseValue : Nat → List Char → Option (Json × List Char)
  | 0, _ => none
  | fuel + 1, l =>
    match l with
    | '{' :: rest =>
      match skipWs rest with
      | '}' :: rest2 => some (Json.obj [], rest2)
      | r => Option.map (fun p => (Json.obj p.1, p.2)) (parseMembers fuel r)
    | '[' :: rest =>
      match skipWs rest with
      | ']' :: rest2 => some (Json.arr [], rest2)
      | r => Option.map (fun p => (Json.arr p.1, p.2)) (parseItems fuel r)
    | '"' :: rest =>
      Option.map (fun p => (Json.str (String.mk p.1), p.2))
        (parseStringBody (rest.length + 1) rest)
    | 't' :: 'r' :: 'u' :: 'e' :: rest => some (Json.bool true, rest)
    | 'f' :: 'a' :: 'l' :: 's' :: 'e' :: rest => some (Json.bool false, rest)
    | 'n' :: 'u' :: 'l' :: 'l' :: rest => some (Json.null, rest)
    | 'N' :: 'a' :: 'N' :: rest => some (Json.nan, rest)
    | 'I' :: 'n' :: 'f' :: 'i' :: 'n' :: 'i' :: 't' :: 'y' :: rest =>
      some (Json.inf true, rest)
    | '-' :: 'I' :: 'n' :: 'f' :: 'i' :: 'n' :: 'i' :: 't' :: 'y' :: rest =>
      some (Json.inf false, rest)
    | _ => parseNumber l

/-- Parse the members of an object, positioned at a key. -/
def parseMembers : Nat → List Char → Option (List (String × Json) × List Char)
  | 0, _ => none
  | fuel + 1, l =>
    match l with
    | '"' :: rest =>
      match parseStringBody (rest.length + 1) rest with
      | none => none
      | some (key, rest2) =>
        match skipWs rest2 with
        | ':' :: rest3 =>
          match parseValue fuel (skipWs rest3) with
          | none => none
          | some (v, rest4) =>
            match skipWs rest4 with
            | ',' :: rest5 =>
              Option.map (fun p => ((String.mk key, v) :: p.1, p.2))
                (parseMembers fuel (skipWs rest5))
            | '}' :: rest5 => some ([(String.mk key, v)], rest5)
            | _ => none
        | _ => none
    | _ => none

/-- Parse the items of an array, positioned at a value. -/
def parseItems : Nat → List Char → Option (List Json × List Char)
  | 0, _ => none
  | fuel + 1, l =>
    match parseValue fuel l with
    | none => none
    | some (v, rest) =>
      match skipWs rest with
      | ',' :: rest2 =>
        Option.map (fun p => (v :: p.1, p.2)) (parseItems fuel (skipWs rest2))
      | ']' :: rest2 => some ([v], rest2)
      | _ => none

end

/-- Model of Python `json.loads`: skip leading whitespace, parse one
value, require only whitespace to remain.  `none` models
`json.JSONDecodeError`. -/
def json_loads (s : String) : Option Json :=
  let l := skipWs s.toList
  match parseValue (l.length + 1) l with
  | none => none
  | some (v, rest) => if skipWs rest = [] then some v else none

/-! ## GeminiService (`app/services/ai_service.py`) -/

/-- Characters stripped by Python `str.strip()` (the ASCII whitespace
set; the claims involve no exotic unicode whitespace). -/
def pyIsSpace (c : Char) : Bool :=
  c = ' ' || c = '\t' || c = '\n' || c = '\r' || c = '\x0b' || c = '\x0c'

/-- Model of Python `str.strip()`. -/
def pyStrip (s : String) : String :=
  String.mk (((s.toList.dropWhile pyIsSpace).reverse.dropWhile pyIsSpace).reverse)

/-- The Response Normalizer: the response-handling tail of
`GeminiService.process_image` (lines 113–138).  The argument models
`response.text`: `none` when the response carries no text, and Python's
truthiness test `if response and response.text` sends both `None` and
`""` to the empty branch.  Otherwise the text is stripped, parsed with
`json.loads`, and a `JSONDecodeError` is absorbed into the
`raw_response` fallback. -/
def normalize_response (responseText : Option String) : Json :=
  match responseText with
  | none => Json.obj [("error", Json.str "No response from Gemini")]
  | some t =>
    if t = "" then Json.obj [("error", Json.str "No response from Gemini")]
    else
      let result_text := pyStrip t
      match json_loads result_text with
      | some v => v
      | none => Json.obj [("raw_response", Json.str result_text)]

/-- The error raised by `process_image` when base64 decoding fails:
`ValueError("Invalid base64 ... data")`, the spec's
`InvalidEncodingError`. -/
inductive PipelineError where
  | invalidEncoding : PipelineError
  deriving DecidableEq

/-- The fixed directive appended to the caller prompt (lines 81–84). -/
def promptDirective : String :=
  "\n                IMPORTANTE: Devuelve ÚNICAMENTE un objeto JSON válido con los campos solicitados. \n                No incluyas explicaciones adicionales, solo el JSON.\n                "

/-- Model of `GeminiService.process_image`.  The external model is passed in as a
`gateway` function from (decoded bytes, mime type, full prompt) to the
optional response text; the returned flag records whether the gateway
was invoked.  A base64 decode failure raises `ValueError` (the spec's
`InvalidEncodingError`), which the outer handler logs and re-raises, so
it surfaces as `Except.error` with the gateway never invoked. -/
def process_image (gateway : List Nat → String → String → Option String)
    (image_base64 : String) (prompt : String) (mime_type : String) :
    Except PipelineError Json × Bool :=
  match b64decode (stripDataUrl image_base64.toList) with
  | none => (Except.error PipelineError.invalidEncoding, false)
  | some file_bytes =>
    let full_prompt := prompt ++ promptDirective
    (Except.ok (normalize_response (gateway file_bytes mime_type full_prompt)), true)

/-- Shape test used by the spec's ExtractionResult trichotomy: is the
value a string-keyed mapping?  The fallback shape and the no-response
marker are themselves string-keyed mappings, so a value failing this
test is none of the three claimed shapes. -/
def isStringKeyedMapping : Json → Bool
  | Json.obj _ => true
  | _ => false

/-! ## Helper lemmas: comma splitting -/

lemma splitOnComma_ne_nil (l : List Char) : splitOnComma l ≠ [] := by
  cases l with
  | nil => simp [splitOnComma]
  | cons c rest =>
    by_cases hc : c = ','
    · simp [splitOnComma, hc]
    · simp only [splitOnComma, if_neg hc]
      cases splitOnComma rest <;> simp

lemma splitOnComma_head (l : List Char) :
    (splitOnComma l).getD 0 [] = l.takeWhile (fun c => c ≠ ',') := by
  induction l with
  | nil => rfl
  | cons c rest ih =>
    by_cases hc : c = ','
    · subst hc
      simp [splitOnComma, List.takeWhile_cons]
    · simp only [splitOnComma, if_neg hc]
      cases hs : splitOnComma rest with
      | nil => exact absurd hs (splitOnComma_ne_nil rest)
      | cons g gs =>
        rw [hs] at ih
        simp at ih
        simp [List.takeWhile_cons, hc, ih]

lemma splitOnComma_no_comma (l : List Char) (h : l.contains ',' = false) :
    splitOnComma l = [l] := by
  induction l with
  | nil => rfl
  | cons c rest ih =>
    rw [List.contains_cons, Bool.or_eq_false_iff] at h
    have hc : ¬ c = ',' := fun he => by simp [he] at h
    simp [splitOnComma, hc, ih h.2]

lemma splitOnComma_append (pre rest : List Char) (h : pre.contains ',' = false) :
    splitOnComma (pre ++ ',' :: rest) = pre :: splitOnComma rest := by
  induction pre with
  | nil => simp [splitOnComma]
  | cons c t ih =>
    rw [List.contains_cons, Bool.or_eq_false_iff] at h
    have hc : ¬ c = ',' := fun he => by simp [he] at h
    simp [splitOnComma, hc, ih h.2]

lemma stripDataUrl_no_comma (l : List Char) (h : l.contains ',' = false) :
    stripDataUrl l = l := by
  unfold stripDataUrl
  rw [h]
  simp

lemma stripDataUrl_comma (l : List Char) (h : l.contains ',' = true) :
    stripDataUrl l = (afterFirstComma l).takeWhile (fun c => c ≠ ',') := by
  induction l with
  | nil => simp at h
  | cons c rest ih =>
    by_cases hc : c = ','
    · subst hc
      have h1 : stripDataUrl (',' :: rest) = (splitOnComma rest).getD 0 [] := by
        unfold stripDataUrl
        rw [h]
        simp [splitOnComma]
      rw [h1, splitOnComma_head]
      simp [afterFirstComma, List.dropWhile_cons]
    · have hr : rest.contains ',' = true := by
        rw [List.contains_cons] at h
        have hcc : (',' == c) = false := beq_eq_false_iff_ne.mpr (fun he => hc he.symm)
        rw [hcc] at h
        simpa using h
      have h2 : stripDataUrl (c :: rest) = stripDataUrl rest := by
        unfold stripDataUrl
        rw [h, hr]
        cases hs : splitOnComma rest with
        | nil => exact absurd hs (splitOnComma_ne_nil rest)
        | cons g gs => simp [splitOnComma, if_neg hc, hs]
      rw [h2, ih hr]
      simp [afterFirstComma, List.dropWhile_cons, hc]

/-! ## Helper lemmas: base64 round trip -/

lemma b64digitVal_digitChar : ∀ d, d < 64 → b64digitVal (b64digitChar d) = some d := by
  decide

lemma b64digitChar_not_pad : ∀ d, d < 64 → b64digitChar d ≠ '=' := by
  decide

lemma b64digitChar_tame (n : Nat) :
    (b64digitChar n).toNat < 128 ∧ b64digitChar n ≠ ',' := by
  by_cases h : n < 64
  · exact (by decide :
      ∀ d, d < 64 → (b64digitChar d).toNat < 128 ∧ b64digitChar d ≠ ',') n h
  · have hA : b64digitChar n = 'A' := by
      unfold b64digitChar
      apply List.getD_eq_default
      have : b64Alphabet.length = 64 := by decide
      omega
    rw [hA]
    exact ⟨by decide, by decide⟩

lemma a2bLoop_digit0 {c : Char} {d : Nat} (h : b64digitVal c = some d) (hne : c ≠ '=')
    (rest : List Char) (left pads : Nat) :
    a2bLoop (c :: rest) 0 left pads = a2bLoop rest 1 d 0 := by
  simp [a2bLoop, hne, h]

lemma a2bLoop_digit1 {c : Char} {d : Nat} (h : b64digitVal c = some d) (hne : c ≠ '=')
    (rest : List Char) (left pads : Nat) :
    a2bLoop (c :: rest) 1 left pads =
      Option.map (fun bs => (left * 4 + d / 16) :: bs) (a2bLoop rest 2 (d % 16) 0) := by
  simp [a2bLoop, hne, h]

lemma a2bLoop_digit2 {c : Char} {d : Nat} (h : b64digitVal c = some d) (hne : c ≠ '=')
    (rest : List Char) (left pads : Nat) :
    a2bLoop (c :: rest) 2 left pads =
      Option.map (fun bs => (left * 16 + d / 4) :: bs) (a2bLoop rest 3 (d % 4) 0) := by
  simp [a2bLoop, hne, h]

lemma a2bLoop_digit3 {c : Char} {d : Nat} (h : b64digitVal c = some d) (hne : c ≠ '=')
    (rest : List Char) (left pads : Nat) :
    a2bLoop (c :: rest) 3 left pads =
      Option.map (fun bs => (left * 64 + d) :: bs) (a2bLoop rest 0 0 0) := by
  simp [a2bLoop, hne, h]

lemma a2bLoop_pad_done (rest : List Char) (qp left pads : Nat) (h2 : 2 ≤ qp)
    (h4 : 4 ≤ qp + pads + 1) :
    a2bLoop ('=' :: rest) qp left pads = some [] := by
  simp [a2bLoop, h2, h4]

lemma a2bLoop_pad_cont (rest : List Char) (qp left pads : Nat) (h2 : 2 ≤ qp)
    (h4 : qp + pads + 1 < 4) :
    a2bLoop ('=' :: rest) qp left pads = a2bLoop rest qp left (pads + 1) := by
  have h4n : ¬ 4 ≤ qp + pads + 1 := by omega
  simp [a2bLoop, h2, h4n]

lemma a2bLoop_encQuad (b1 b2 b3 : Nat) (h1 : b1 < 256) (h2 : b2 < 256) (h3 : b3 < 256)
    (rest : List Char) :
    a2bLoop (b64digitChar (b1 / 4) :: b64digitChar (b1 % 4 * 16 + b2 / 16) ::
             b64digitChar (b2 % 16 * 4 + b3 / 64) :: b64digitChar (b3 % 64) :: rest) 0 0 0 =
      Option.map (fun bs => b1 :: b2 :: b3 :: bs) (a2bLoop rest 0 0 0) := by
  have e1 : b1 / 4 < 64 := by omega
  have e2 : b1 % 4 * 16 + b2 / 16 < 64 := by omega
  have e3 : b2 % 16 * 4 + b3 / 64 < 64 := by omega
  have e4 : b3 % 64 < 64 := by omega
  rw [a2bLoop_digit0 (b64digitVal_digitChar _ e1) (b64digitChar_not_pad _ e1),
      a2bLoop_digit1 (b64digitVal_digitChar _ e2) (b64digitChar_not_pad _ e2),
      a2bLoop_digit2 (b64digitVal_digitChar _ e3) (b64digitChar_not_pad _ e3),
      a2bLoop_digit3 (b64digitVal_digitChar _ e4) (b64digitChar_not_pad _ e4)]
  have v1 : b1 / 4 * 4 + (b1 % 4 * 16 + b2 / 16) / 16 = b1 := by omega
  have v2 : (b1 % 4 * 16 + b2 / 16) % 16 * 16 + (b2 % 16 * 4 + b3 / 64) / 4 = b2 := by
    omega
  have v3 : (b2 % 16 * 4 + b3 / 64) % 4 * 64 + b3 % 64 = b3 := by omega
  simp only [Option.map_map, v1, v2, v3]
  rfl

lemma a2bLoop_encPad1 (b1 : Nat) (h1 : b1 < 256) :
    a2bLoop [b64digitChar (b1 / 4), b64digitChar (b1 % 4 * 16), '=', '='] 0 0 0 =
      some [b1] := by
  have e1 : b1 / 4 < 64 := by omega
  have e2 : b1 % 4 * 16 < 64 := by omega
  rw [a2bLoop_digit0 (b64digitVal_digitChar _ e1) (b64digitChar_not_pad _ e1),
      a2bLoop_digit1 (b64digitVal_digitChar _ e2) (b64digitChar_not_pad _ e2),
      a2bLoop_pad_cont _ _ _ _ (by omega) (by omega),
      a2bLoop_pad_done _ _ _ _ (by omega) (by omega)]
  simp
  omega

lemma a2bLoop_encPad2 (b1 b2 : Nat) (h1 : b1 < 256) (h2 : b2 < 256) :
    a2bLoop [b64digitChar (b1 / 4), b64digitChar (b1 % 4 * 16 + b2 / 16),
             b64digitChar (b2 % 16 * 4), '='] 0 0 0 = some [b1, b2] := by
  have e1 : b1 / 4 < 64 := by omega
  have e2 : b1 % 4 * 16 + b2 / 16 < 64 := by omega
  have e3 : b2 % 16 * 4 < 64 := by omega
  rw [a2bLoop_digit0 (b64digitVal_digitChar _ e1) (b64digitChar_not_pad _ e1),
      a2bLoop_digit1 (b64digitVal_digitChar _ e2) (b64digitChar_not_pad _ e2),
      a2bLoop_digit2 (b64digitVal_digitChar _ e3) (b64digitChar_not_pad _ e3),
      a2bLoop_pad_done _ _ _ _ (by omega) (by omega)]
  simp
  constructor
  · omega
  · omega

lemma a2bLoop_b64encode :
    ∀ (bs : List Nat), (∀ b ∈ bs, b < 256) → a2bLoop (b64encode bs) 0 0 0 = some bs := by
  intro bs
  induction bs using b64encode.induct with
  | case1 => intro _; rfl
  | case2 b1 =>
    intro h
    exact a2bLoop_encPad1 b1 (h b1 (by simp))
  | case3 b1 b2 =>
    intro h
    exact a2bLoop_encPad2 b1 b2 (h b1 (by simp)) (h b2 (by simp))
  | case4 b1 b2 b3 rest ih =>
    intro h
    simp only [List.mem_cons, forall_eq_or_imp] at h
    simp only [b64encode]
    rw [a2bLoop_encQuad b1 b2 b3 h.1 h.2.1 h.2.2.1 _]
    rw [ih (fun b hb => h.2.2.2 b hb)]
    rfl

lemma b64encode_tame : ∀ (bs : List Nat), ∀ c ∈ b64encode bs, c.toNat < 128 ∧ c ≠ ',' := by
  intro bs
  induction bs using b64encode.induct with
  | case1 => intro c hc; simp [b64encode] at hc
  | case2 b1 =>
    intro c hc
    simp only [b64encode, List.mem_cons, List.mem_singleton] at hc
    rcases hc with rfl | rfl | rfl | rfl | h
    · exact b64digitChar_tame _
    · exact b64digitChar_tame _
    · exact ⟨by decide, by decide⟩
    · exact ⟨by decide, by decide⟩
    · simp at h
  | case3 b1 b2 =>
    intro c hc
    simp only [b64encode, List.mem_cons, List.mem_singleton] at hc
    rcases hc with rfl | rfl | rfl | rfl | h
    · exact b64digitChar_tame _
    · exact b64digitChar_tame _
    · exact b64digitChar_tame _
    · exact ⟨by decide, by decide⟩
    · simp at h
  | case4 b1 b2 b3 rest ih =>
    intro c hc
    simp only [b64encode, List.mem_cons] at hc
    rcases hc with rfl | rfl | rfl | rfl | h
    · exact b64digitChar_tame _
    · exact b64digitChar_tame _
    · exact b64digitChar_tame _
    · exact b64digitChar_tame _
    · exact ih c h

lemma b64encode_no_comma (bs : List Nat) : (b64encode bs).contains ',' = false := by
  rw [Bool.eq_false_iff]
  intro hmem
  have : ',' ∈ b64encode bs := by
    rw [List.contains_iff_exists_mem_beq] at hmem
    rcases hmem with ⟨x, hx, hbx⟩
    rcases eq_of_beq hbx with rfl
    exact hx
  exact (b64encode_tame bs ',' this).2 rfl

lemma b64encode_all_ascii (bs : List Nat) :
    (b64encode bs).all (fun c => c.toNat < 128) = true := by
  rw [List.all_eq_true]
  intro c hc
  simpa using (b64encode_tame bs c hc).1

lemma b64decode_b64encode (bs : List Nat) (h : ∀ b ∈ bs, b < 256) :
    b64decode (b64encode bs) = some bs := by
  unfold b64decode
  rw [if_pos (b64encode_all_ascii bs)]
  exact a2bLoop_b64encode bs h

/-! ## Claim theorems -/

/-- C1, counterexample: on the reply `"[1, 2]"` — valid structured data —
the Response Normalizer returns the parsed JSON array, which is not a
string-keyed mapping; since the fallback shape and the no-response
marker are string-keyed mappings (last two conjuncts), the result is
none of the three claimed ExtractionResult shapes. -/
theorem C1_nonmapping_counterexample :
    normalize_response (some "[1, 2]") = Json.arr [Json.num 1, Json.num 2] ∧
    isStringKeyedMapping (normalize_response (some "[1, 2]")) = false ∧
    isStringKeyedMapping (Json.obj [("raw_response", Json.str "[1, 2]")]) = true ∧
    isStringKeyedMapping (Json.obj [("error", Json.str "No response from Gemini")]) = true :=
  ⟨rfl, rfl, rfl, rfl⟩

/-- C1, amended: for every raw model text input (`none` models an absent
reply), the Response Normalizer is total and returns exactly one of: the
parsed JSON value (of any JSON shape, not necessarily a string-keyed
mapping) when the stripped text parses, the `raw_response` fallback
mapping when it does not, or the no-response marker when the reply is
empty or absent; it never raises. -/
theorem C1_normalizer_total (t : Option String) :
    normalize_response t = Json.obj [("error", Json.str "No response from Gemini")] ∨
    (∃ s v, t = some s ∧ json_loads (pyStrip s) = some v ∧ normalize_response t = v) ∨
    (∃ s, t = some s ∧ json_loads (pyStrip s) = none ∧
      normalize_response t = Json.obj [("raw_response", Json.str (pyStrip s))]) := by
  match t with
  | none => exact Or.inl rfl
  | some s =>
    by_cases hs : s = ""
    · subst hs
      exact Or.inl rfl
    · cases hp : json_loads (pyStrip s) with
      | none =>
        refine Or.inr (Or.inr ⟨s, rfl, hp, ?_⟩)
        simp [normalize_response, hs, hp]
      | some v =>
        refine Or.inr (Or.inl ⟨s, v, rfl, hp, ?_⟩)
        simp [normalize_response, hs, hp]

/-- C2, counterexample: for the unparseable reply
`"Lo siento, no puedo procesar esto "` (note the trailing space) the
normalizer returns a mapping keyed `"raw_response"` holding the
stripped text — not, as claimed, one keyed `"rawResponse"` holding the
original unmodified text. -/
theorem C2_raw_response_counterexample :
    normalize_response (some "Lo siento, no puedo procesar esto ") =
      Json.obj [("raw_response", Json.str "Lo siento, no puedo procesar esto")] ∧
    Json.obj [("raw_response", Json.str "Lo siento, no puedo procesar esto")] ≠
      Json.obj [("rawResponse", Json.str "Lo siento, no puedo procesar esto ")] := by
  refine ⟨rfl, fun h => ?_⟩
  injection h with h1
  injection h1 with h2 h3
  injection h2 with h4 h5
  exact absurd h4 (by decide)

/-- C2, amended: for every non-empty model reply text whose stripped
form is not parseable as JSON, the normalizer returns the fallback
mapping whose single entry maps the key `"raw_response"` to the reply
text stripped of surrounding whitespace; in particular, for the reply
`Lo siento, no puedo procesar esto` the result equals
`Json.obj [("raw_response", Json.str "Lo siento, no puedo procesar esto")]`
(witnessed below). -/
theorem C2_raw_response_fallback (t : String) (hne : t ≠ "")
    (hparse : json_loads (pyStrip t) = none) :
    normalize_response (some t) = Json.obj [("raw_response", Json.str (pyStrip t))] := by
  simp [normalize_response, hne, hparse]

/-- C2, witness: scenario C of the spec, with the corrected key. -/
theorem C2_raw_response_fallback_witness :
    "Lo siento, no puedo procesar esto" ≠ "" ∧
    json_loads (pyStrip "Lo siento, no puedo procesar esto") = none ∧
    normalize_response (some "Lo siento, no puedo procesar esto") =
      Json.obj [("raw_response", Json.str "Lo siento, no puedo procesar esto")] :=
  ⟨by decide, by rfl,
   C2_raw_response_fallback "Lo siento, no puedo procesar esto" (by decide) (by rfl)⟩

/-- C3, counterexample: when the model returns no text the normalizer
returns `{"error": "No response from Gemini"}`, which differs from the
claimed mapping `{"error": "No response from model"}`. -/
theorem C3_marker_counterexample :
    normalize_response none = Json.obj [("error", Json.str "No response from Gemini")] ∧
    Json.obj [("error", Json.str "No response from Gemini")] ≠
      Json.obj [("error", Json.str "No response from model")] := by
  refine ⟨rfl, fun h => ?_⟩
  injection h with h1
  injection h1 with h2 h3
  injection h2 with h4 h5
  injection h5 with h6
  exact absurd h6 (by decide)

/-- C3, amended: whenever the model returns no text at all (`none`, or
an empty text, both falsy in the source's guard), the normalizer
returns the mapping `{"error": "No response from Gemini"}`. -/
theorem C3_empty_marker :
    normalize_response none = Json.obj [("error", Json.str "No response from Gemini")] ∧
    normalize_response (some "") =
      Json.obj [("error", Json.str "No response from Gemini")] :=
  ⟨rfl, rfl⟩

/-- C4: the Type Sniffer classifies byte sequences by magic number in
priority order — `%PDF` then `\x89PNG` then `\xff\xd8\xff` then
`UNKNOWN` — the empty byte sequence yields `UNKNOWN`, and at the string
level `detect_file_type` is total: undecodable input yields `UNKNOWN`
(the caught-exception path) and decodable input is classified by its
bytes. -/
theorem C4_type_sniffer (bs : List Nat) (s : String) :
    (pdfMagic.isPrefixOf bs = true → classifyBytes bs = "PDF") ∧
    (pdfMagic.isPrefixOf bs = false → pngMagic.isPrefixOf bs = true →
      classifyBytes bs = "PNG") ∧
    (pdfMagic.isPrefixOf bs = false → pngMagic.isPrefixOf bs = false →
      jpegMagic.isPrefixOf bs = true → classifyBytes bs = "JPEG") ∧
    (pdfMagic.isPrefixOf bs = false → pngMagic.isPrefixOf bs = false →
      jpegMagic.isPrefixOf bs = false → classifyBytes bs = "UNKNOWN") ∧
    classifyBytes [] = "UNKNOWN" ∧
    (b64decode (stripDataUrl s.toList) = none → detect_file_type s = "UNKNOWN") ∧
    (∀ bytes, b64decode (stripDataUrl s.toList) = some bytes →
      detect_file_type s = classifyBytes bytes) := by
  refine ⟨?_, ?_, ?_, ?_, by decide, ?_, ?_⟩
  · intro h1
    simp [classifyBytes, h1]
  · intro h1 h2
    simp [classifyBytes, h1, h2]
  · intro h1 h2 h3
    simp [classifyBytes, h1, h2, h3]
  · intro h1 h2 h3
    simp [classifyBytes, h1, h2, h3]
  · intro h
    unfold detect_file_type
    rw [h]
  · intro bytes h
    unfold detect_file_type
    rw [h]

/-- C4, witness: the sniffer on one concrete input per branch, and the
string-level fallback on an undecodable payload. -/
theorem C4_type_sniffer_witness :
    classifyBytes [37, 80, 68, 70, 0] = "PDF" ∧
    classifyBytes [137, 80, 78, 71] = "PNG" ∧
    classifyBytes [255, 216, 255, 1] = "JPEG" ∧
    classifyBytes [1, 2, 3] = "UNKNOWN" ∧
    classifyBytes [] = "UNKNOWN" ∧
    detect_file_type "QQ" = "UNKNOWN" :=
  ⟨(C4_type_sniffer [37, 80, 68, 70, 0] "QQ").1 (by decide),
   (C4_type_sniffer [137, 80, 78, 71] "QQ").2.1 (by decide) (by decide),
   (C4_type_sniffer [255, 216, 255, 1] "QQ").2.2.1 (by decide) (by decide) (by decide),
   (C4_type_sniffer [1, 2, 3] "QQ").2.2.2.1 (by decide) (by decide) (by decide),
   (C4_type_sniffer [] "QQ").2.2.2.2.1,
   (C4_type_sniffer [] "QQ").2.2.2.2.2.1 (by decide)⟩

/-- C5, counterexample: for the base64 encoding of `%PDF-1.4` with no
filename supplied, `get_file_info` reports fileType `PDF` but
synthesizes the filename `"archivo.pdf"`, not the claimed
`"file.pdf"`. -/
theorem C5_filename_counterexample :
    (get_file_info "JVBERi0xLjQ=" none).file_type = "PDF" ∧
    (get_file_info "JVBERi0xLjQ=" none).filename = "archivo.pdf" ∧
    "archivo.pdf" ≠ "file.pdf" :=
  ⟨by decide, by decide, by decide⟩

/-- C5, amended: when no filename is supplied, `get_file_info`
synthesizes `"archivo.<lowercased detected type>"` (with extension
`"bin"` when the detected type is `UNKNOWN`); for an encoded payload
whose bytes begin with `%PDF`, the returned record has file type `PDF`
and filename `"archivo.pdf"`. -/
theorem C5_default_filename (payload : String) :
    (get_file_info payload none).filename =
      "archivo." ++ (if detect_file_type payload ≠ "UNKNOWN"
        then pyLower (detect_file_type payload) else "bin") ∧
    (get_file_info "JVBERi0xLjQ=" none).file_type = "PDF" ∧
    (get_file_info "JVBERi0xLjQ=" none).filename = "archivo.pdf" :=
  ⟨rfl, by decide, by decide⟩

/-- C6, counterexample: on the payload `"x,QQ,Wg=="` (two commas) the
code selects by decoding the segment `"QQ"` between the first and second
commas, not the whole remainder `"QQ,Wg=="` after the first comma; the
two choices are observably different — the code's segment fails to
decode while the claimed remainder decodes. -/
theorem C6_split_counterexample :
    stripDataUrl "x,QQ,Wg==".toList = "QQ".toList ∧
    afterFirstComma "x,QQ,Wg==".toList = "QQ,Wg==".toList ∧
    stripDataUrl "x,QQ,Wg==".toList ≠ afterFirstComma "x,QQ,Wg==".toList ∧
    b64decode (stripDataUrl "x,QQ,Wg==".toList) = none ∧
    b64decode (afterFirstComma "x,QQ,Wg==".toList) = some [65, 5, 160] :=
  ⟨by decide, by decide, by decide, by decide, by decide⟩

/-- C6, amended: a payload with no comma is decoded in full; a payload
with at least one comma has exactly the segment between the first and
second commas decoded (i.e. the part of the post-first-comma remainder
up to the next comma — the whole remainder only when there is no second
comma). -/
theorem C6_segment_between_commas (s : List Char) :
    (s.contains ',' = false → stripDataUrl s = s) ∧
    (s.contains ',' = true →
      stripDataUrl s = (afterFirstComma s).takeWhile (fun c => c ≠ ',')) :=
  ⟨fun h => stripDataUrl_no_comma s h, fun h => stripDataUrl_comma s h⟩

/-- C6, witness: both branches at concrete payloads. -/
theorem C6_segment_between_commas_witness :
    stripDataUrl "abc".toList = "abc".toList ∧
    stripDataUrl "a,b,c".toList = "b".toList :=
  ⟨(C6_segment_between_commas ("abc".toList)).1 (by decide),
   (C6_segment_between_commas ("a,b,c".toList)).2 (by decide)⟩

/-- C7: whenever the decodable segment of the payload is not valid
base64, `process_image` fails with the invalid-encoding error and the
model gateway is never invoked — for every gateway, the result is the
error with the invocation flag `false`. -/
theorem C7_no_model_call_on_decode_failure
    (gateway : List Nat → String → String → Option String)
    (image_base64 prompt mime_type : String)
    (h : b64decode (stripDataUrl image_base64.toList) = none) :
    process_image gateway image_base64 prompt mime_type =
      (Except.error PipelineError.invalidEncoding, false) := by
  unfold process_image
  rw [h]

/-- C7, witness: the undecodable payload `"QQ"` fails before any model
call, for a gateway that would otherwise answer. -/
theorem C7_no_model_call_on_decode_failure_witness :
    b64decode (stripDataUrl "QQ".toList) = none ∧
    process_image (fun _ _ _ => some "respuesta") "QQ" "extrae los campos"
      "application/pdf" = (Except.error PipelineError.invalidEncoding, false) :=
  ⟨by decide, C7_no_model_call_on_decode_failure _ _ _ _ (by decide)⟩

/-- C8: the Transport Decoder is a left inverse of base64 encoding —
for every byte sequence, decoding the encoded form (as the pipeline
does, stripping an optional metadata prefix first) reproduces the bytes
exactly, and the same holds when a comma-free metadata prefix and the
comma separator are prepended. -/
theorem C8_decode_encode_roundtrip (bs : List Nat) (h : ∀ b ∈ bs, b < 256) :
    b64decode (stripDataUrl (b64encode bs)) = some bs ∧
    ∀ pre : List Char, pre.contains ',' = false →
      b64decode (stripDataUrl (pre ++ ',' :: b64encode bs)) = some bs := by
  constructor
  · rw [stripDataUrl_no_comma _ (b64encode_no_comma bs)]
    exact b64decode_b64encode bs h
  · intro pre hpre
    have hc : (pre ++ ',' :: b64encode bs).contains ',' = true := by
      rw [List.contains_iff_exists_mem_beq]
      exact ⟨',', by simp, by simp⟩
    have hstrip : stripDataUrl (pre ++ ',' :: b64encode bs) = b64encode bs := by
      unfold stripDataUrl
      rw [hc]
      simp only [if_true]
      rw [splitOnComma_append pre _ hpre, splitOnComma_no_comma _ (b64encode_no_comma bs)]
      rfl
    rw [hstrip]
    exact b64decode_b64encode bs h

/-- C8, witness: round trip on the bytes of `%PDF-1.4`, bare and with a
data-URL prefix. -/
theorem C8_decode_encode_roundtrip_witness :
    b64decode (stripDataUrl (b64encode [37, 80, 68, 70, 45, 49, 46, 52])) =
      some [37, 80, 68, 70, 45, 49, 46, 52] ∧
    b64decode (stripDataUrl ("data:application/pdf;base64".toList ++ ',' ::
      b64encode [37, 80, 68, 70, 45, 49, 46, 52])) =
      some [37, 80, 68, 70, 45, 49, 46, 52] :=
  ⟨(C8_decode_encode_roundtrip [37, 80, 68, 70, 45, 49, 46, 52] (by decide)).1,
   (C8_decode_encode_roundtrip [37, 80, 68, 70, 45, 49, 46, 52] (by decide)).2
     ("data:application/pdf;base64".toList) (by decide)⟩

/-- C9: for every input string on which base64 decoding of the stripped
payload fails, `calculate_file_size` returns `0.0` instead of raising —
the fallback covers all undecodable inputs, not only the empty
payload. -/
theorem C9_size_zero_on_decode_failure (s : String)
    (h : b64decode (stripDataUrl s.toList) = none) :
    calculate_file_size s = 0 := by
  unfold calculate_file_size
  rw [h]

/-- C9, witness: the non-empty undecodable payload `"QQ"`. -/
theorem C9_size_zero_on_decode_failure_witness :
    b64decode (stripDataUrl "QQ".toList) = none ∧ calculate_file_size "QQ" = 0 :=
  ⟨by decide, C9_size_zero_on_decode_failure "QQ" (by decide)⟩

/-- C10: `get_file_info` treats an empty-string filename exactly like an
absent one — Python's `if not filename` is a falsiness test — so for
every payload the two calls return identical records. -/
theorem C10_empty_filename_like_absent (payload : String) :
    get_file_info payload (some "") = get_file_info payload none := rfl
